import Mathlib

/-!
Shallow embedding of the poline-rs color-palette engine
(crates/poline-core: types.rs, positions.rs, utils.rs, color_point.rs, lib.rs).

Conventions of the embedding:
* Rust `f32` values are modeled as real numbers (`ℝ`); the claims under
  study are about the algebraic/structural behavior of the code, not about
  rounding.  Transcendental operations map to their `Real` counterparts.
* `f32::atan2` is modeled by `Complex.arg` of the point, which has the same
  range `(-π, π]` and the same value at the origin (`0`).
* Rust `%` on floats (remainder with the dividend's sign) is modeled by
  `rustRem` below; `powf` with the literal exponents `2.0 .. 5.0` is modeled
  by the corresponding monomial, which agrees with `powf` on every base.
* `usize` maps to `ℕ`; `i / (n - 1)` keeps Rust's truncating division
  (`Nat.div`).
* Diverging control flow (`panic`, failed `assert`, `unreachable`) is made
  explicit through the `Outcome` result type where a claim depends on it.
-/

/-- Truncation toward zero, the rounding used by Rust's float remainder. -/
noncomputable def rustTrunc (x : ℝ) : ℝ :=
  if 0 ≤ x then (⌊x⌋ : ℝ) else (⌈x⌉ : ℝ)

/-- Rust `%` on floats: `a - b * trunc (a / b)` (sign follows the dividend). -/
noncomputable def rustRem (a b : ℝ) : ℝ :=
  a - b * rustTrunc (a / b)

/-- Rust `y.atan2 x`: the angle of the point `(x, y)`, in `(-π, π]`;
`rustAtan2 0 0 = 0` exactly as for `f32`. -/
noncomputable def rustAtan2 (y x : ℝ) : ℝ :=
  Complex.arg ⟨x, y⟩

/-- types.rs: `pub struct Vector3(pub f32, pub f32, pub f32)`.
Fields `v0 v1 v2` mirror the positional fields `.0 .1 .2`; the source name
`Vector3` collides with a Mathlib declaration, hence `Vec3`. -/
@[ext]
structure Vec3 where
  v0 : ℝ
  v1 : ℝ
  v2 : ℝ

instance : Inhabited Vec3 :=
  ⟨⟨0, 0, 0⟩⟩

/-- types.rs: `pub struct PartialVector3(pub Option<f32>, ...)`. -/
structure PartialVec3 where
  p0 : Option ℝ
  p1 : Option ℝ
  p2 : Option ℝ

/-- positions.rs: the `PositionScale` enum of the nine easing variants. -/
inductive PositionScale where
  | Linear
  | Exponential
  | Cubic
  | Quadratic
  | Quartic
  | Sinusoidal
  | Asinusoidal
  | Arc
  | SmoothStep
deriving DecidableEq

/-- lib.rs: `pub enum PolineErrors { MissingArgument, PointNotFound }`. -/
inductive PolineErrors where
  | MissingArgument
  | PointNotFound
deriving DecidableEq

/-- Result channel for operations of the engine.  `ok` is a normal return;
`panicked` marks Rust's diverging paths (`panic`, failed `assert`,
`unreachable`); `err e` is the recoverable-error channel of the source's
`PolineErrors` enum — the source declares that enum, and this constructor
lets the development state whether an operation reports through it (the
operations below in fact never do: they panic). -/
inductive Outcome (α : Type) where
  | ok (val : α)
  | err (e : PolineErrors)
  | panicked (msg : String)

/-- positions.rs: `position_from_scale(scale, t, reverse)`.  The `powf`
calls with literal integer exponents are the corresponding powers; the
`SmoothStep` arm `t.powf(2.0 * (3.0 - 2.0 * t))` has a genuinely real
exponent and is modeled with `Real.rpow`. -/
noncomputable def position_from_scale (scale : PositionScale) (t : ℝ) (reverse : Bool) : ℝ :=
  match scale with
  | .Linear => t
  | .Exponential => if reverse then 1 - (1 - t) ^ 2 else t ^ 2
  | .Cubic => if reverse then 1 - (1 - t) ^ 3 else t ^ 3
  | .Quadratic => if reverse then 1 - (1 - t) ^ 4 else t ^ 4
  | .Quartic => if reverse then 1 - (1 - t) ^ 5 else t ^ 5
  | .Sinusoidal =>
      if reverse then 1 - Real.sin (((1 - t) * Real.pi) / 2)
      else Real.sin ((t * Real.pi) / 2)
  | .Asinusoidal =>
      if reverse then 1 - Real.arcsin (1 - t) / (Real.pi / 2)
      else Real.arcsin t / (Real.pi / 2)
  | .Arc =>
      if reverse then Real.sqrt (1 - (1 - t) ^ 2)
      else 1 - Real.sqrt (1 - t)
  | .SmoothStep => Real.rpow t (2 * (3 - 2 * t))

/-- utils.rs: `number_as_enum(scale_num)`; the wildcard arm of the source
is `unreachable` and panics. -/
def number_as_enum (scale_num : ℕ) : Outcome PositionScale :=
  match scale_num with
  | 0 => .ok .Linear
  | 1 => .ok .Exponential
  | 2 => .ok .Cubic
  | 3 => .ok .Quadratic
  | 4 => .ok .Quartic
  | 5 => .ok .Sinusoidal
  | 6 => .ok .Asinusoidal
  | 7 => .ok .Arc
  | 8 => .ok .SmoothStep
  | _ => .panicked ("internal error: entered unreachable code")

/-- utils.rs: `point_to_hsl(xyz, inverted_lightness)`. -/
noncomputable def point_to_hsl (xyz : Vec3) (inverted_lightness : Bool) : Vec3 :=
  let x := xyz.v0
  let y := xyz.v1
  let z := xyz.v2
  let cx : ℝ := 0.5
  let cy : ℝ := 0.5
  let radians := rustAtan2 (y - cy) (x - cx)
  let deg := radians * (180 / Real.pi)
  let deg2 := rustRem (360 + deg) 360
  let s := z
  let dist := Real.sqrt ((y - cy) ^ 2 + (x - cx) ^ 2)
  let l := dist / cx
  let lightness := if inverted_lightness then 1 - l else l
  ⟨deg2, s, lightness⟩

/-- utils.rs: `hsl_to_point(hsl, inverted_lightness)`. -/
noncomputable def hsl_to_point (hsl : Vec3) (inverted_lightness : Bool) : Vec3 :=
  let h := hsl.v0
  let s := hsl.v1
  let l := hsl.v2
  let cx : ℝ := 0.5
  let cy : ℝ := 0.5
  let radians := h / (180 / Real.pi)
  let dist := if inverted_lightness then (1 - l) * cx else 1.0 * cx
  let x := cx + dist * Real.cos radians
  let y := cy + dist * Real.sin radians
  let z := s
  ⟨x, y, z⟩

/-- utils.rs: the private helper `_invert(number, invert)`. -/
def rustInvert (number : ℝ) (invert : Bool) : ℝ :=
  if invert then 1 - number else number

/-- utils.rs: `vector_on_line(t, p1, p2, invert, fx, fy, fz)`. -/
noncomputable def vector_on_line (t : ℝ) (p1 p2 : Vec3) (invert : Bool)
    (fx fy fz : Option PositionScale) : Vec3 :=
  let t_modified_x := match fx with
    | some fx => position_from_scale fx t invert
    | none => rustInvert t invert
  let t_modified_y := match fy with
    | some fy => position_from_scale fy t invert
    | none => rustInvert t invert
  let t_modified_z := match fz with
    | some fz => position_from_scale fz t invert
    | none => rustInvert t invert
  ⟨(1 - t_modified_x) * p1.v0 + t_modified_x * p2.v0,
   (1 - t_modified_y) * p1.v1 + t_modified_y * p2.v1,
   (1 - t_modified_z) * p1.v2 + t_modified_z * p2.v2⟩

/-- utils.rs: `vectors_on_line(p1, p2, num_points, invert, fx, fy, fz)`:
`num_points` defaults to 4; the loop `for i in 0..num_points` pushes
`vector_on_line((i / (num_points - 1)) as f32, ...)` — the division is
Rust's truncating `usize` division, kept here as `Nat` division.
(For `num_points = 1` the source divides by zero and panics; no claim and
no caller in the source reaches that case.) -/
noncomputable def vectors_on_line (p1 p2 : Vec3) (num_points : Option ℕ) (invert : Bool)
    (fx fy fz : Option PositionScale) : List Vec3 :=
  let np := num_points.getD 4
  (List.range np).map (fun i =>
    vector_on_line (((i / (np - 1) : ℕ) : ℝ)) p1 p2 invert fx fy fz)

/-- utils.rs: `distance(p1, p2, hue_mode)` over partial vectors. -/
noncomputable def distance (p1 p2 : PartialVec3) (hue_mode : Bool) : ℝ :=
  let diff_a := match p1.p0, p2.p0 with
    | some a1, some a2 =>
        if hue_mode then (min |a1 - a2| (360 - |a1 - a2|)) / 360 else a1 - a2
    | _, _ => 0
  let a := diff_a
  let b := match p1.p1, p2.p1 with
    | some q1, some q2 => q2 - q1
    | _, _ => 0
  let c := match p1.p2, p2.p2 with
    | some q1, some q2 => q2 - q1
    | _, _ => 0
  Real.sqrt (a * a + b * b + c * c)

/-- color_point.rs: `ColorPointCollection { xyz, color, inverted_lightness }`. -/
structure ColorPointCollection where
  xyz : Option Vec3
  color : Option Vec3
  inverted_lightness : Bool

/-- color_point.rs: `ColorPoint { x, y, z, color, _inverted_lightness }`.
Its `PartialEq` compares every field, which is Lean's structure equality. -/
@[ext]
structure ColorPoint where
  x : ℝ
  y : ℝ
  z : ℝ
  color : Vec3
  _inverted_lightness : Bool

/-- color_point.rs: the `Default` impl for `ColorPoint` (origin, zero
color, non-inverted). -/
instance : Inhabited ColorPoint :=
  ⟨⟨0, 0, 0, ⟨0, 0, 0⟩, false⟩⟩

noncomputable instance : DecidableEq ColorPoint := Classical.decEq _

/-- color_point.rs: `ColorPoint::new(initial)`: a supplied position wins
over a supplied color (the match tries `xyz` first); with only a color,
the position is derived from the color.  The source's final arm (neither
supplied) is `unreachable` and panics; it is modeled by the default point
and exercised by no claim and no caller in the source. -/
noncomputable def ColorPoint.new (initial : ColorPointCollection) : ColorPoint :=
  let result := { (default : ColorPoint) with
                  _inverted_lightness := initial.inverted_lightness }
  match initial.xyz, initial.color with
  | some xyz, _ =>
      { result with x := xyz.v0, y := xyz.v1, z := xyz.v2,
                    color := point_to_hsl xyz initial.inverted_lightness }
  | none, some color =>
      let q := hsl_to_point color initial.inverted_lightness
      { result with color := color, x := q.v0, y := q.v1, z := q.v2 }
  | none, none => result

/-- color_point.rs: `set_position`: store the position, recompute the
color from it. -/
noncomputable def ColorPoint.set_position (p : ColorPoint) (new_position : Vec3) : ColorPoint :=
  { p with x := new_position.v0, y := new_position.v1, z := new_position.v2,
           color := point_to_hsl new_position p._inverted_lightness }

/-- color_point.rs: `position`. -/
def ColorPoint.position (p : ColorPoint) : Vec3 :=
  ⟨p.x, p.y, p.z⟩

/-- color_point.rs: `set_hsl`: store the color, recompute the position
from it. -/
noncomputable def ColorPoint.set_hsl (p : ColorPoint) (new_color : Vec3) : ColorPoint :=
  let q := hsl_to_point new_color p._inverted_lightness
  { p with color := new_color, x := q.v0, y := q.v1, z := q.v2 }

/-- color_point.rs: `hsl`. -/
def ColorPoint.hsl (p : ColorPoint) : Vec3 :=
  p.color

/-- color_point.rs: `hsl_css`, which formats with the template
`"hsl({hue},{saturation}%,{luminance}%"` — there is no closing
parenthesis in the template.  The rendering of a single `f32` by Rust's
`Display` lies outside the numeric model, so it is a parameter
`f : ℝ → String`. -/
def ColorPoint.hsl_css (f : ℝ → String) (p : ColorPoint) : String :=
  let hue := p.color.v0
  let saturation := p.color.v1 * 100
  let luminance := p.color.v2 * 100
  "hsl(" ++ f hue ++ "," ++ f saturation ++ "%," ++ f luminance ++ "%"

/-- color_point.rs: `shift_hue(angle)`: rotate the hue by
`(360 + (hue + angle)) % 360` and recompute the position. -/
noncomputable def ColorPoint.shift_hue (p : ColorPoint) (angle : ℝ) : ColorPoint :=
  let c : Vec3 := ⟨rustRem (360 + (p.color.v0 + angle)) 360, p.color.v1, p.color.v2⟩
  let q := hsl_to_point c p._inverted_lightness
  { p with color := c, x := q.v0, y := q.v1, z := q.v2 }

/-- lib.rs: `PolineOptions`. -/
structure PolineOptions where
  anchor_colors : Option (List Vec3)
  num_points : ℕ
  position_function : PositionScale
  position_function_x : Option PositionScale
  position_function_y : Option PositionScale
  position_function_z : Option PositionScale
  inverted_lightness : Bool
  closed_loop : Bool

/-- lib.rs: the `Poline` palette struct. -/
structure Poline where
  needs_update : Bool
  anchor_points : List ColorPoint
  num_points : ℕ
  points : List (List ColorPoint)
  position_function_x : PositionScale
  position_function_y : PositionScale
  position_function_z : PositionScale
  anchor_pairs : List (ColorPoint × ColorPoint)
  connect_last_and_first_anchor : Bool
  animation_frame : Option ℝ
  inverted_lightness : Bool

/-- lib.rs: the associated function `Poline::_update_anchor_pairs`.
The loop `for i in 0..anchor_points_length` pushes the pair
`(anchor_points[i], anchor_points[(i + 1) % anchor_points_length])` —
the wraparound index is reduced modulo `anchor_points_length` (the pair
count), exactly as written in the source.  Indexing is modeled with
`getD`; every executed access is in bounds, so the default is never
produced.  The grid maps each pair, with its index, through
`vectors_on_line` between the two positions with `invert = (idx % 2 == 0)`
and wraps the samples into ColorPoints built from positions. -/
noncomputable def Poline.updateAnchorPairsFn (_loop : Bool) (anchor_points : List ColorPoint)
    (inverted_lightness : Bool) (num_points : ℕ)
    (fx fy fz : PositionScale) :
    List (ColorPoint × ColorPoint) × List (List ColorPoint) :=
  let anchor_points_length :=
    if _loop then anchor_points.length else anchor_points.length - 1
  let anchor_pairs := (List.range anchor_points_length).map (fun i =>
    (anchor_points.getD i default,
     anchor_points.getD ((i + 1) % anchor_points_length) default))
  let points := anchor_pairs.enum.map (fun q =>
    (vectors_on_line q.2.1.position q.2.2.position (some num_points)
        (q.1 % 2 == 0) (some fx) (some fy) (some fz)).map (fun point =>
      ColorPoint.new ⟨some point, none, inverted_lightness⟩))
  (anchor_pairs, points)

/-- lib.rs: the method `update_anchor_pairs`: rebuild `anchor_pairs` and
`points` from the current fields. -/
noncomputable def Poline.update_anchor_pairs (p : Poline) : Poline :=
  let r := Poline.updateAnchorPairsFn p.connect_last_and_first_anchor p.anchor_points
    p.inverted_lightness p.num_points
    p.position_function_x p.position_function_y p.position_function_z
  { p with anchor_pairs := r.1, points := r.2 }

/-- lib.rs: `impl From<PolineOptions> for Poline`, after the
`assert!(anchor_colors.len() >= 2)` has succeeded and with the default
random pair already resolved into `anchor_colors` (the random source is an
external collaborator).  The stored field is `options.num_points + 2`,
while the derivation call receives `options.num_points`, exactly as in
the source. -/
noncomputable def Poline.fromOptionsCore (options : PolineOptions)
    (anchor_colors : List Vec3) : Poline :=
  let anchor_points := anchor_colors.map (fun point =>
    ColorPoint.new ⟨none, some point, options.inverted_lightness⟩)
  let num_points := options.num_points + 2
  let position_function_x := options.position_function_x.getD options.position_function
  let position_function_y := options.position_function_y.getD options.position_function
  let position_function_z := options.position_function_z.getD options.position_function
  let r := Poline.updateAnchorPairsFn options.closed_loop anchor_points
    options.inverted_lightness options.num_points
    position_function_x position_function_y position_function_z
  { needs_update := true
    anchor_points := anchor_points
    num_points := num_points
    points := r.2
    position_function_x := position_function_x
    position_function_y := position_function_y
    position_function_z := position_function_z
    anchor_pairs := r.1
    connect_last_and_first_anchor := options.closed_loop
    animation_frame := none
    inverted_lightness := options.inverted_lightness }

/-- lib.rs: the `From<PolineOptions>` conversion: resolve the optional
anchor colors against the externally supplied random default pair and
enforce `assert!(anchor_colors.len() >= 2)` (a failed assert panics). -/
noncomputable def Poline.fromOptions (options : PolineOptions) (random_pair : List Vec3) :
    Outcome Poline :=
  let anchor_colors := options.anchor_colors.getD random_pair
  if 2 ≤ anchor_colors.length then .ok (Poline.fromOptionsCore options anchor_colors)
  else .panicked ("assertion failed: anchor_colors.len() >= 2")

/-- lib.rs: `add_anchor_point(initial, insert_at_index)`; `Vec::insert`
panics when the index exceeds the length. -/
noncomputable def Poline.add_anchor_point (p : Poline) (initial : ColorPointCollection)
    (insert_at_index : Option ℕ) : Outcome (Poline × ColorPoint) :=
  let new_anchor := ColorPoint.new initial
  match insert_at_index with
  | some index =>
      if index ≤ p.anchor_points.length then
        .ok (Poline.update_anchor_pairs
          { p with anchor_points := p.anchor_points.insertIdx index new_anchor }, new_anchor)
      else .panicked ("insertion index out of bounds")
  | none =>
      .ok (Poline.update_anchor_pairs
        { p with anchor_points := p.anchor_points ++ [new_anchor] }, new_anchor)

/-- lib.rs: `remove_anchor_point_at_index(index)`; `Vec::remove` panics
when the index is out of bounds. -/
noncomputable def Poline.remove_anchor_point_at_index (p : Poline) (index : ℕ) :
    Outcome Poline :=
  if index < p.anchor_points.length then
    .ok (Poline.update_anchor_pairs
      { p with anchor_points := p.anchor_points.eraseIdx index })
  else .panicked ("removal index out of bounds")

/-- lib.rs: `remove_anchor_point(point)`: find the first anchor equal to
`point` (full value equality); when none is found the source runs
`panic` with the message "Point not found". -/
noncomputable def Poline.remove_anchor_point (p : Poline) (point : ColorPoint) :
    Outcome Poline :=
  match p.anchor_points.findIdx? (fun q => decide (q = point)) with
  | some index => p.remove_anchor_point_at_index index
  | none => .panicked ("Point not found")

/-- lib.rs: `update_anchor_point_at_index(index, initial)`.  The source
reads `self.anchor_points[index]` into a local copy (`ColorPoint` is
`Copy`), applies `set_position` for a supplied position and then
`set_hsl` for a supplied color to that copy, calls `update_anchor_pairs`,
and returns the copy; the initial indexing panics when the index is out
of bounds. -/
noncomputable def Poline.update_anchor_point_at_index (p : Poline) (index : ℕ)
    (initial : ColorPointCollection) : Outcome (Poline × ColorPoint) :=
  if index < p.anchor_points.length then
    let point := p.anchor_points.getD index default
    let point := match initial.xyz with
      | some xyz => point.set_position xyz
      | none => point
    let point := match initial.color with
      | some color => point.set_hsl color
      | none => point
    .ok (p.update_anchor_pairs, point)
  else .panicked ("index out of bounds")

/-- lib.rs: `update_anchor_point(point, initial)`: find the first anchor
equal to `point`; when none is found the source runs `panic` with the
message "Point not found". -/
noncomputable def Poline.update_anchor_point (p : Poline) (point : ColorPoint)
    (initial : ColorPointCollection) : Outcome Poline :=
  match p.anchor_points.findIdx? (fun q => decide (q = point)) with
  | some index =>
      match p.update_anchor_point_at_index index initial with
      | .ok r => .ok r.1
      | .err e => .err e
      | .panicked m => .panicked m
  | none => .panicked ("Point not found")

/-- lib.rs: the palette-level `shift_hue(shift)`: shift every anchor's
hue, then rebuild pairs and grid. -/
noncomputable def Poline.shift_hue (p : Poline) (shift : ℝ) : Poline :=
  Poline.update_anchor_pairs
    { p with anchor_points := p.anchor_points.map (fun q => q.shift_hue shift) }

/-- lib.rs: `set_position_fn_x(scale_num)`. -/
def Poline.set_position_fn_x (p : Poline) (scale_num : ℕ) : Outcome Poline :=
  match number_as_enum scale_num with
  | .ok scale => .ok { p with position_function_x := scale }
  | .err e => .err e
  | .panicked m => .panicked m

/-- lib.rs: `set_position_fn_y(scale_num)` — note that the source body
assigns the selected scale to `self.position_function_z`. -/
def Poline.set_position_fn_y (p : Poline) (scale_num : ℕ) : Outcome Poline :=
  match number_as_enum scale_num with
  | .ok scale => .ok { p with position_function_z := scale }
  | .err e => .err e
  | .panicked m => .panicked m

/-- lib.rs: `set_position_fn_z(scale_num)`. -/
def Poline.set_position_fn_z (p : Poline) (scale_num : ℕ) : Outcome Poline :=
  match number_as_enum scale_num with
  | .ok scale => .ok { p with position_function_z := scale }
  | .err e => .err e
  | .panicked m => .panicked m

/-- lib.rs: `set_position_fn(scale_num)`: set all three axes. -/
def Poline.set_position_fn (p : Poline) (scale_num : ℕ) : Outcome Poline :=
  match number_as_enum scale_num with
  | .ok scale => .ok { p with position_function_x := scale,
                              position_function_y := scale,
                              position_function_z := scale }
  | .err e => .err e
  | .panicked m => .panicked m

/-- lib.rs: `flattened_points`: flatten the grid and keep an element
exactly when the filter closure returns true — that is, when its flat
index is `0` or satisfies `idx % self.num_points == 0`. -/
def Poline.flattened_points (p : Poline) : List ColorPoint :=
  ((p.points.flatten.enum).filter (fun q =>
    if q.1 ≠ 0 then q.1 % p.num_points == 0 else true)).map (fun q => q.2)

/-- lib.rs: `colors`: project the flattened points to their color triples
and, for a closed loop, drop the final element (the source's
`split_last().unwrap().1`; `unwrap` panics only on an empty list, and
`dropLast` agrees with it on every nonempty list). -/
def Poline.colors (p : Poline) : List Vec3 :=
  let colors := p.flattened_points.map (fun point => point.color)
  if p.connect_last_and_first_anchor then colors.dropLast else colors

/-- Concrete anchor color `(0, 1, 0.8)` for the evaluations below. -/
noncomputable def colorA : Vec3 :=
  ⟨0, 1, 0.8⟩

/-- Concrete anchor color `(120, 1, 0.3)` for the evaluations below. -/
noncomputable def colorB : Vec3 :=
  ⟨120, 1, 0.3⟩

/-- Concrete options: the two explicit anchor colors above, sample density
`num_points = 4`, default `Sinusoidal` easing, open loop, lightness not
inverted. -/
noncomputable def exOptions : PolineOptions :=
  { anchor_colors := some [colorA, colorB]
    num_points := 4
    position_function := .Sinusoidal
    position_function_x := none
    position_function_y := none
    position_function_z := none
    inverted_lightness := false
    closed_loop := false }

/-- The palette constructed from `exOptions` (the assert on the anchor
count succeeds: two colors are supplied). -/
noncomputable def exPoline : Poline :=
  Poline.fromOptionsCore exOptions [colorA, colorB]

/-- The first anchor of `exPoline`. -/
noncomputable def exA0 : ColorPoint :=
  ColorPoint.new ⟨none, some colorA, false⟩

/-- The second anchor of `exPoline`. -/
noncomputable def exA1 : ColorPoint :=
  ColorPoint.new ⟨none, some colorB, false⟩

/-- A second concrete anchor, distinguished from `default` by `x = 1`. -/
noncomputable def exAnchor : ColorPoint :=
  ⟨1, 0, 0, ⟨0, 0, 0⟩, false⟩

/-- A small concrete open palette with exactly two anchors, used to
exercise the mutation operations directly. -/
noncomputable def pal2 : Poline :=
  { needs_update := true
    anchor_points := [default, exAnchor]
    num_points := 6
    points := []
    position_function_x := .Sinusoidal
    position_function_y := .Sinusoidal
    position_function_z := .Sinusoidal
    anchor_pairs := []
    connect_last_and_first_anchor := false
    animation_frame := none
    inverted_lightness := false }

/-- A concrete point equal to no anchor of `pal2` (its `x` is 5). -/
noncomputable def ptX : ColorPoint :=
  ⟨5, 0, 0, ⟨0, 0, 0⟩, false⟩

/-! Helper lemmas about the float remainder. -/

theorem rustRem_of_lt {a b : ℝ} (h0 : 0 ≤ a) (hab : a < b) : rustRem a b = a := by
  have hb : 0 < b := lt_of_le_of_lt h0 hab
  have hq : 0 ≤ a / b := div_nonneg h0 hb.le
  have hq1 : a / b < 1 := (div_lt_one hb).mpr hab
  have hfl : ⌊a / b⌋ = 0 := Int.floor_eq_zero_iff.mpr ⟨hq, hq1⟩
  rw [rustRem, rustTrunc, if_pos hq, hfl]
  push_cast
  ring

theorem rustRem_of_ge {a b : ℝ} (hb : 0 < b) (hba : b ≤ a) (h2 : a < 2 * b) :
    rustRem a b = a - b := by
  have h1 : (1 : ℝ) ≤ a / b := (one_le_div hb).mpr hba
  have h2' : a / b < 2 := (div_lt_iff₀ hb).mpr (by linarith)
  have hfl : ⌊a / b⌋ = 1 := by
    rw [Int.floor_eq_iff]
    constructor
    · exact_mod_cast h1
    · push_cast
      linarith
  rw [rustRem, rustTrunc, if_pos (le_trans zero_le_one h1), hfl]
  push_cast
  ring

/-- C5: for every pair of points and every `count > 2`, `vectors_on_line`
returns exactly `count` points, the sample at index `i` is computed with
the truncating integer division `i / (count - 1)` as its parameter, that
parameter is `0` for every `i < count - 1`, and it is `1` at the final
index. -/
theorem vectors_on_line_truncating_params (p1 p2 : Vec3) (count : ℕ) (invert : Bool)
    (fx fy fz : Option PositionScale) (h : 2 < count) :
    (vectors_on_line p1 p2 (some count) invert fx fy fz).length = count ∧
    (∀ i, i < count →
      (vectors_on_line p1 p2 (some count) invert fx fy fz).getD i default =
        vector_on_line (((i / (count - 1) : ℕ) : ℝ)) p1 p2 invert fx fy fz) ∧
    (∀ i, i < count - 1 → ((i / (count - 1) : ℕ) : ℝ) = 0) ∧
    (((count - 1) / (count - 1) : ℕ) : ℝ) = 1 := by
  refine ⟨by simp [vectors_on_line], ?_, ?_, ?_⟩
  · intro i hi
    simp only [vectors_on_line, Option.getD_some]
    rw [List.getD_eq_getElem?_getD, List.getElem?_map, List.getElem?_range hi]
    rfl
  · intro i hi
    rw [Nat.div_eq_of_lt hi]
    norm_num
  · rw [Nat.div_self (by omega)]
    norm_num

/-- Witness for C5 at `count = 4`: the hypothesis `2 < 4` holds and the
returned sequence has exactly 4 points. -/
theorem vectors_on_line_truncating_params_witness :
    2 < 4 ∧
    (vectors_on_line ⟨0, 0, 0⟩ ⟨1, 1, 1⟩ (some 4) false none none none).length = 4 :=
  ⟨by norm_num,
   (vectors_on_line_truncating_params ⟨0, 0, 0⟩ ⟨1, 1, 1⟩ 4 false none none none
      (by norm_num)).1⟩

/-- C1 (failing evaluation): on the concrete open two-anchor palette the
flattening KEEPS exactly the elements whose flat index is 0 or a multiple
of `num_points` and drops all others — the converse of the claimed
behavior.  The constructed 4-element grid flattens to 1 point, the
re-derived 6-element grid also flattens to 1 point, while the claimed
length `pairCount*(numPoints+2) - (pairCount-1)` is 6. -/
theorem flattened_points_keeps_only_boundaries :
    exPoline.points.flatten.length = 4 ∧
    exPoline.flattened_points.length = 1 ∧
    (exPoline.update_anchor_pairs).points.flatten.length = 6 ∧
    ((exPoline.update_anchor_pairs).flattened_points).length = 1 ∧
    exPoline.anchor_pairs.length * (exOptions.num_points + 2) -
      (exPoline.anchor_pairs.length - 1) = 6 :=
  ⟨rfl, rfl, rfl, rfl, rfl⟩

/-- C2 (failing evaluation): with `closedLoop = false` and the two
concrete anchors, the derived pair list has the right length (one pair)
but the pair's second component wraps around to the first anchor, because
the source reduces the wraparound index modulo the pair count: the pair is
`(exA0, exA0)`, not the adjacent `(exA0, exA1)`, and the two anchors are
distinct. -/
theorem anchor_pairs_wraparound_bug :
    exPoline.anchor_pairs = [(exA0, exA0)] ∧ exA0 ≠ exA1 := by
  refine ⟨rfl, fun h => ?_⟩
  have h0 : exA0.color.v0 = 0 := rfl
  have h1 : exA1.color.v0 = 120 := rfl
  rw [h, h1] at h0
  norm_num at h0

/-- C4 (failing evaluation): the constructed palette stores
`num_points = configured + 2` but samples each segment with only
`configured` points; the invariant `inner length = num_points + 2` fails
right after construction and only holds after `update_anchor_pairs`
re-derives the grid.  `points.len() == anchor_pairs.len()` does hold. -/
theorem construction_grid_density_mismatch :
    exPoline.num_points = exOptions.num_points + 2 ∧
    exPoline.points.length = exPoline.anchor_pairs.length ∧
    (exPoline.points.getD 0 []).length = exOptions.num_points ∧
    ((exPoline.update_anchor_pairs).points.getD 0 []).length = exOptions.num_points + 2 :=
  ⟨rfl, rfl, rfl, rfl⟩

/-- C6 (failing evaluation): `set_position_fn_y 0` leaves the y-axis
easing untouched (still `Sinusoidal`) and instead replaces the z-axis
easing with `Linear`. -/
theorem set_position_fn_y_sets_z :
    ∃ q, pal2.set_position_fn_y 0 = Outcome.ok q ∧
      q.position_function_y = PositionScale.Sinusoidal ∧
      q.position_function_z = PositionScale.Linear ∧
      pal2.position_function_y = PositionScale.Sinusoidal ∧
      pal2.position_function_z = PositionScale.Sinusoidal :=
  ⟨{ pal2 with position_function_z := .Linear }, rfl, rfl, rfl, rfl, rfl⟩

/-- Helper: the concrete point `ptX` is none of `pal2`'s anchors. -/
theorem ptX_not_mem : ptX ∉ pal2.anchor_points := by
  have h0 : ptX ≠ (default : ColorPoint) := fun h => by
    have h5 : (5 : ℝ) = 0 := congrArg ColorPoint.x h
    norm_num at h5
  have h1 : ptX ≠ exAnchor := fun h => by
    have h5 : (5 : ℝ) = 1 := congrArg ColorPoint.x h
    norm_num at h5
  intro hm
  rcases (by simpa [pal2] using hm : ptX = default ∨ ptX = exAnchor) with hc | hc
  · exact h0 hc
  · exact h1 hc

/-- Helper: a not-found lookup makes `findIdx?` return `none`. -/
theorem findIdx_not_mem {l : List ColorPoint} {pt : ColorPoint} (h : pt ∉ l) :
    l.findIdx? (fun q => decide (q = pt)) = none := by
  rw [List.findIdx?_eq_none_iff]
  intro x hx
  exact decide_eq_false (fun he => h (he ▸ hx))

/-- C3 (counterexample): on the concrete palette and a point that equals
no anchor, `remove_anchor_point` and `update_anchor_point` do NOT report
the recoverable error `PointNotFound`: both panic with the message
"Point not found". -/
theorem remove_not_found_no_recoverable_error :
    pal2.remove_anchor_point ptX ≠ Outcome.err PolineErrors.PointNotFound ∧
    pal2.remove_anchor_point ptX = Outcome.panicked ("Point not found") ∧
    pal2.update_anchor_point ptX ⟨none, none, false⟩ ≠
      Outcome.err PolineErrors.PointNotFound := by
  have hf := findIdx_not_mem ptX_not_mem
  refine ⟨?_, ?_, ?_⟩
  · simp [Poline.remove_anchor_point, hf]
  · simp [Poline.remove_anchor_point, hf]
  · simp [Poline.update_anchor_point, hf]

/-- C3 (amended): looking up a point that equals no stored anchor makes
`remove_anchor_point` — and likewise `update_anchor_point` — diverge with
the panic message "Point not found" before any mutation, instead of
returning the recoverable error `PointNotFound`; no modified palette is
produced. -/
theorem not_found_panics (P : Poline) (pt : ColorPoint) (initial : ColorPointCollection)
    (h : pt ∉ P.anchor_points) :
    P.remove_anchor_point pt = Outcome.panicked ("Point not found") ∧
    P.update_anchor_point pt initial = Outcome.panicked ("Point not found") := by
  have hf := findIdx_not_mem h
  constructor
  · simp [Poline.remove_anchor_point, hf]
  · simp [Poline.update_anchor_point, hf]

/-- Witness for the amended C3 at the concrete palette and point. -/
theorem not_found_panics_witness :
    ptX ∉ pal2.anchor_points ∧
    pal2.remove_anchor_point ptX = Outcome.panicked ("Point not found") ∧
    pal2.update_anchor_point ptX ⟨none, none, false⟩ = Outcome.panicked ("Point not found") :=
  ⟨ptX_not_mem,
   (not_found_panics pal2 ptX ⟨none, none, false⟩ ptX_not_mem).1,
   (not_found_panics pal2 ptX ⟨none, none, false⟩ ptX_not_mem).2⟩

/-- C9: when `update_anchor_point_at_index` receives both a position and a
color, it returns the indexed anchor's copy with `set_position` applied
first and `set_hsl` second, so the copy's final state is exactly the state
derived from the supplied color (the position is overwritten); by
contrast, `ColorPoint.new` given both prefers the position (the color
argument is ignored). -/
theorem update_at_index_color_wins (P : Poline) (i : ℕ) (xyz c : Vec3) (il : Bool)
    (h : i < P.anchor_points.length) :
    P.update_anchor_point_at_index i ⟨some xyz, some c, il⟩ =
      Outcome.ok (P.update_anchor_pairs,
        ((P.anchor_points.getD i default).set_position xyz).set_hsl c) ∧
    ((P.anchor_points.getD i default).set_position xyz).set_hsl c =
      ColorPoint.new ⟨none, some c, (P.anchor_points.getD i default)._inverted_lightness⟩ ∧
    ColorPoint.new ⟨some xyz, some c, il⟩ = ColorPoint.new ⟨some xyz, none, il⟩ := by
  refine ⟨?_, rfl, rfl⟩
  simp [Poline.update_anchor_point_at_index, h]

/-- Witness for C9 on the concrete palette at index 0. -/
theorem update_at_index_color_wins_witness :
    0 < pal2.anchor_points.length ∧
    pal2.update_anchor_point_at_index 0 ⟨some ⟨1, 0, 0⟩, some ⟨10, 1, 0.5⟩, false⟩ =
      Outcome.ok (pal2.update_anchor_pairs,
        ((pal2.anchor_points.getD 0 default).set_position ⟨1, 0, 0⟩).set_hsl ⟨10, 1, 0.5⟩) :=
  ⟨by decide,
   (update_at_index_color_wins pal2 0 ⟨1, 0, 0⟩ ⟨10, 1, 0.5⟩ false (by decide)).1⟩

/-- C10: removing by a valid index from an open palette with exactly two
anchors succeeds (no minimum anchor count is enforced) and leaves one
anchor, an empty pair list, and an empty grid. -/
theorem remove_at_index_no_min_count (P : Poline) (i : ℕ)
    (hopen : P.connect_last_and_first_anchor = false)
    (hlen : P.anchor_points.length = 2) (hi : i < 2) :
    ∃ q, P.remove_anchor_point_at_index i = Outcome.ok q ∧
      q.anchor_points.length = 1 ∧ q.anchor_pairs = [] ∧ q.points = [] := by
  have hi' : i < P.anchor_points.length := by omega
  have hlen' : (P.anchor_points.eraseIdx i).length = 1 := by
    have := List.length_eraseIdx_add_one hi'
    omega
  refine ⟨Poline.update_anchor_pairs { P with anchor_points := P.anchor_points.eraseIdx i },
    ?_, ?_, ?_, ?_⟩
  · simp [Poline.remove_anchor_point_at_index, hi']
  · simpa [Poline.update_anchor_pairs] using hlen'
  · simp [Poline.update_anchor_pairs, Poline.updateAnchorPairsFn, hopen, hlen']
  · simp [Poline.update_anchor_pairs, Poline.updateAnchorPairsFn, hopen, hlen']

/-- Witness for C10 on the concrete two-anchor palette at index 0. -/
theorem remove_at_index_no_min_count_witness :
    (pal2.connect_last_and_first_anchor = false ∧
     pal2.anchor_points.length = 2 ∧ 0 < 2) ∧
    ∃ q, pal2.remove_anchor_point_at_index 0 = Outcome.ok q ∧
      q.anchor_points.length = 1 ∧ q.anchor_pairs = [] ∧ q.points = [] :=
  ⟨⟨rfl, rfl, by norm_num⟩,
   remove_at_index_no_min_count pal2 0 rfl rfl (by norm_num)⟩

/-- C8: `hsl_css` renders exactly
`"hsl(" ++ hue ++ "," ++ saturation*100 ++ "%," ++ lightness*100 ++ "%"`
under the `f32` formatter `f`, and — the template having no closing
parenthesis — the output contains no `)` whenever the formatter emits
none. -/
theorem hsl_css_format (f : ℝ → String) (p : ColorPoint) :
    ColorPoint.hsl_css f p =
      "hsl(" ++ f p.color.v0 ++ "," ++ f (p.color.v1 * 100) ++ "%," ++
        f (p.color.v2 * 100) ++ "%" ∧
    ((∀ v : ℝ, ')' ∉ (f v).data) → ')' ∉ (ColorPoint.hsl_css f p).data) := by
  refine ⟨rfl, fun hf => ?_⟩
  simp only [ColorPoint.hsl_css, String.data_append, List.mem_append]
  intro hc
  rcases hc with (((((hc | hc) | hc) | hc) | hc) | hc) | hc
  · exact absurd hc (by decide)
  · exact hf _ hc
  · exact absurd hc (by decide)
  · exact hf _ hc
  · exact absurd hc (by decide)
  · exact hf _ hc
  · exact absurd hc (by decide)

/-- Witness for C8 with a concrete formatter that emits no parenthesis. -/
theorem hsl_css_format_witness :
    (∀ v : ℝ, ')' ∉ (((fun _ => "1") : ℝ → String) v).data) ∧
    ')' ∉ (ColorPoint.hsl_css (fun _ => "1") default).data :=
  ⟨fun _ => show ')' ∉ ("1" : String).data by decide,
   (hsl_css_format (fun _ => "1") default).2
     (fun _ => show ')' ∉ ("1" : String).data by decide)⟩

/-! Helper lemmas for the conversion round trip (C7). -/

theorem point_to_hsl_v0 (p : Vec3) (inv : Bool) :
    (point_to_hsl p inv).v0 =
      rustRem (360 + rustAtan2 (p.v1 - 0.5) (p.v0 - 0.5) * (180 / Real.pi)) 360 := rfl

theorem point_to_hsl_v2_false (p : Vec3) :
    (point_to_hsl p false).v2 =
      Real.sqrt ((p.v1 - 0.5) ^ 2 + (p.v0 - 0.5) ^ 2) / 0.5 := rfl

theorem hsl_to_point_false (q : Vec3) :
    hsl_to_point q false =
      ⟨0.5 + 1.0 * 0.5 * Real.cos (q.v0 / (180 / Real.pi)),
       0.5 + 1.0 * 0.5 * Real.sin (q.v0 / (180 / Real.pi)), q.v1⟩ := rfl

theorem arg_half_cos_sin (r : ℝ) :
    rustAtan2 (0.5 * Real.sin r) (0.5 * Real.cos r) =
      Complex.arg (Complex.cos r + Complex.sin r * Complex.I) := by
  rw [rustAtan2]
  have hmk : (⟨0.5 * Real.cos r, 0.5 * Real.sin r⟩ : ℂ) =
      ((0.5 : ℝ) : ℂ) * (Complex.cos r + Complex.sin r * Complex.I) := by
    rw [Complex.mk_eq_add_mul_I, ← Complex.ofReal_cos, ← Complex.ofReal_sin]
    push_cast
    ring
  rw [hmk, Complex.arg_real_mul _ (by norm_num : (0 : ℝ) < 0.5)]

theorem center_point_lightness_not_roundtrip :
    (point_to_hsl (hsl_to_point (point_to_hsl ⟨0.5, 0.5, 0⟩ false) false) false).v2 ≠
      (point_to_hsl ⟨0.5, 0.5, 0⟩ false).v2 := by
  have h0 : (point_to_hsl ⟨0.5, 0.5, 0⟩ false).v0 = 0 := by
    rw [point_to_hsl_v0]
    dsimp only
    rw [rustAtan2]
    have hz : (⟨(0.5 : ℝ) - 0.5, (0.5 : ℝ) - 0.5⟩ : ℂ) = 0 := by
      apply Complex.ext <;> norm_num
    rw [hz, Complex.arg_zero, zero_mul, add_zero]
    rw [rustRem_of_ge (by norm_num) (by norm_num) (by norm_num)]
    norm_num
  have h2 : (point_to_hsl ⟨0.5, 0.5, 0⟩ false).v2 = 0 := by
    rw [point_to_hsl_v2_false]
    dsimp only
    norm_num
  rw [hsl_to_point_false, point_to_hsl_v2_false]
  dsimp only
  rw [h0, h2]
  have hsin : Real.sin ((0 : ℝ) / (180 / Real.pi)) = 0 := by
    rw [zero_div, Real.sin_zero]
  have hcos : Real.cos ((0 : ℝ) / (180 / Real.pi)) = 1 := by
    rw [zero_div, Real.cos_zero]
  rw [hsin, hcos]
  have harg : (0.5 + 1.0 * 0.5 * (0 : ℝ) - 0.5) ^ 2 + (0.5 + 1.0 * 0.5 * 1 - 0.5) ^ 2 =
      (0.5 : ℝ) ^ 2 := by norm_num
  rw [harg, Real.sqrt_sq (by norm_num : (0 : ℝ) ≤ 0.5)]
  norm_num

/-- C7: converting a point to HSL, mapping it back to a point, and
converting that point again reproduces the hue and the saturation
exactly, for every starting point (lightness not inverted); the lightness
component need not round-trip — the inverse mapping uses the fixed radius
0.5 in the non-inverted branch — witnessed by the center point, whose
lightness 0 comes back as 1. -/
theorem point_hsl_roundtrip_hue_sat :
    (∀ p : Vec3,
      (point_to_hsl (hsl_to_point (point_to_hsl p false) false) false).v0 =
        (point_to_hsl p false).v0 ∧
      (point_to_hsl (hsl_to_point (point_to_hsl p false) false) false).v1 =
        (point_to_hsl p false).v1) ∧
    (∃ p : Vec3,
      (point_to_hsl (hsl_to_point (point_to_hsl p false) false) false).v2 ≠
        (point_to_hsl p false).v2) := by
  constructor
  · intro p
    refine ⟨?_, rfl⟩
    have hpi : (0 : ℝ) < Real.pi := Real.pi_pos
    have hdpi : (0 : ℝ) < 180 / Real.pi := by positivity
    rw [hsl_to_point_false, point_to_hsl_v0, point_to_hsl_v0]
    dsimp only
    set θ := rustAtan2 (p.v1 - 0.5) (p.v0 - 0.5) with hθdef
    have hIoc : -Real.pi < θ ∧ θ ≤ Real.pi := by
      rw [hθdef, rustAtan2]
      exact ⟨Complex.neg_pi_lt_arg _, Complex.arg_le_pi _⟩
    set H := rustRem (360 + θ * (180 / Real.pi)) 360 with hHdef
    have e1 : 0.5 + 1.0 * 0.5 * Real.sin (H / (180 / Real.pi)) - 0.5 =
        0.5 * Real.sin (H / (180 / Real.pi)) := by ring
    have e2 : 0.5 + 1.0 * 0.5 * Real.cos (H / (180 / Real.pi)) - 0.5 =
        0.5 * Real.cos (H / (180 / Real.pi)) := by ring
    rw [e1, e2, arg_half_cos_sin]
    rcases le_or_lt 0 θ with hpos | hneg
    · have hdeg0 : 0 ≤ θ * (180 / Real.pi) := mul_nonneg hpos hdpi.le
      have hdeg180 : θ * (180 / Real.pi) ≤ 180 := by
        calc θ * (180 / Real.pi) ≤ Real.pi * (180 / Real.pi) :=
              mul_le_mul_of_nonneg_right hIoc.2 hdpi.le
          _ = 180 := by field_simp
      have hH : H = θ * (180 / Real.pi) := by
        rw [hHdef, rustRem_of_ge (by norm_num) (by linarith) (by linarith)]
        ring
      have hr : H / (180 / Real.pi) = θ := by
        rw [hH, mul_div_assoc, div_self (ne_of_gt hdpi), mul_one]
      rw [hr, Complex.arg_cos_add_sin_mul_I (Set.mem_Ioc.mpr hIoc)]
    · have hdeg0 : -180 < θ * (180 / Real.pi) := by
        calc (-180 : ℝ) = (-Real.pi) * (180 / Real.pi) := by field_simp; ring
          _ < θ * (180 / Real.pi) := mul_lt_mul_of_pos_right hIoc.1 hdpi
      have hdegneg : θ * (180 / Real.pi) < 0 := mul_neg_of_neg_of_pos hneg hdpi
      have hH : H = 360 + θ * (180 / Real.pi) := by
        rw [hHdef, rustRem_of_lt (by linarith) (by linarith)]
      have hr : H / (180 / Real.pi) = θ + 2 * Real.pi := by
        rw [hH]
        field_simp
        ring
      have hper : Complex.cos ((θ + 2 * Real.pi : ℝ) : ℂ) +
            Complex.sin ((θ + 2 * Real.pi : ℝ) : ℂ) * Complex.I =
          Complex.cos (θ : ℂ) + Complex.sin (θ : ℂ) * Complex.I := by
        push_cast
        rw [Complex.cos_add_two_pi, Complex.sin_add_two_pi]
      rw [hr]
      rw [hper, Complex.arg_cos_add_sin_mul_I (Set.mem_Ioc.mpr hIoc)]
  · exact ⟨⟨0.5, 0.5, 0⟩, center_point_lightness_not_roundtrip⟩
